import Mathlib

/-!
Verification of the RoosterOS UEFI firmware-volume parser.

The repository contains two implementations of the FV / FFS / section
decoder stack:

* `src/firmware/firmware_utils.py` — the library (driven by `parse_uefi.py`),
  modelled below in namespace `FWU`;
* `src/firmware/extract_fw.py` — the standalone extractor with its own copy
  of the decoders, modelled in namespace `EFW`.

Python `bytes` values are modelled as `List Nat` (entries below 256 on real
inputs).  Python slicing `b[lo:hi]` clamps and never fails; byte indexing
`b[i]` raises `IndexError` out of range; `struct.unpack_from` raises
`struct.error` when the buffer is too short.  `while` loops are embedded
with an explicit fuel parameter; exhausting the fuel is reported by the
distinguished outcome `PyErr.fuelExhausted`, which a terminating run never
produces once the fuel is large enough.  LZMA decompression is an external
dependency and is passed in as an oracle `Bytes → Option Bytes`
(`none` models `lzma.LZMAError`).
-/

/-- Python `bytes`, one natural number per byte. -/
abbrev Bytes := List Nat

/-- Python slice `b[lo:hi]` (with `0 ≤ lo ≤ hi` as used by the sources):
clamps to the available range and never fails. -/
def pySlice (b : Bytes) (lo hi : Nat) : Bytes := (b.take hi).drop lo

/-- Little-endian value of a byte string, as computed by
`struct.unpack` / `int.from_bytes(..., "little")`. -/
def leValue (bs : Bytes) : Nat := bs.foldr (fun x acc => x + 256 * acc) 0

/-- The manual 24-bit little-endian assembly
`b[off] | (b[off+1] << 8) | (b[off+2] << 16)` used by both sources. -/
def u24at (b : Bytes) (off : Nat) : Nat :=
  b.getD off 0 ||| (b.getD (off + 1) 0 <<< 8) ||| (b.getD (off + 2) 0 <<< 16)

/-- `align_up(x, align) = (x + align - 1) & ~(align - 1)` from both sources.
For the power-of-two aligns used there (4 and 8) the bit mask clears the low
bits, i.e. rounds `x + align - 1` down to a multiple of `align`. -/
def align_up (x a : Nat) : Nat := (x + a - 1) - (x + a - 1) % a

/-- `EFI_FV_SIGNATURE = b"_FVH"`. -/
def fvSignature : Bytes := [0x5F, 0x46, 0x56, 0x48]

/-- Exception kinds the parsers can raise.
`badSignature` is `ValueError` (`BadSignature` in the spec);
`notImplementedError` is `UnsupportedCompression` in the spec;
`structError`, `indexError` and `uuidError` are `struct.error`,
`IndexError` and the `ValueError` raised by `uuid.UUID` on a short
buffer — none of them appear in the spec error taxonomy. -/
inductive PyErr
  | badSignature
  | uuidError
  | structError
  | indexError
  | notImplementedError
  | lzmaError
  | fuelExhausted
deriving DecidableEq

/-- Parsed FV header state (`fv_length`, `header_length`, `block_map`). -/
structure FirmwareVolume where
  fv_length : Nat
  header_length : Nat
  block_map : List (Nat × Nat)
deriving DecidableEq

/-- Parsed section state (`type`, `size`, `attrs`, construction offset,
exposed `payload`). -/
structure EfiSection where
  type : Nat
  size : Nat
  attrs : Nat
  file_offset : Nat
  payload : Bytes
deriving DecidableEq

/-- Parsed FFS file state from `firmware_utils.FfsFile`. -/
structure FfsFile where
  guid : Bytes
  type : Nat
  attributes : Nat
  size : Nat
  state : Nat
  data : Bytes
  sections : List EfiSection
  fv_offset : Nat
deriving DecidableEq

/-- One 4-byte block-map entry `struct.unpack_from("<HH", data, off)`:
the pair of 16-bit little-endian values at `off` and `off + 2`. -/
def entryAt (data : Bytes) (off : Nat) : Nat × Nat :=
  (leValue (pySlice data off (off + 2)), leValue (pySlice data (off + 2) (off + 4)))

/-- The common `attrs` read `raw[4] if len(raw) > 4 else 0`
(identical in both sources). -/
def sectAttrs (raw : Bytes) : Nat := if 4 < raw.length then raw.getD 4 0 else 0

/-- The `while True` block-map loop shared verbatim by both
`parse_header` implementations: read `(num, blen)` entries, stop without
storing on the first entry with `num == 0 or blen == 0`, raise
`struct.error` when fewer than 4 bytes remain. -/
def blockMapLoop (data : Bytes) : Nat → Nat → List (Nat × Nat) → Except PyErr (List (Nat × Nat))
  | 0, _, _ => .error .fuelExhausted
  | fuel + 1, offset, acc =>
    if offset + 4 ≤ data.length then
      let e := entryAt data offset
      if e.1 = 0 ∨ e.2 = 0 then .ok acc
      else blockMapLoop data fuel (offset + 4) (acc ++ [e])
    else .error .structError

namespace FWU

/-- `firmware_utils.FirmwareVolume.parse_header`:
`hdr = data[:0x30]`; `struct.unpack_from("<16s16sQ4s", hdr, 0)` (needs 44
bytes, else `struct.error`); signature check at `hdr[0x28:0x2C]`;
`fv_length` from `hdr[0x20:0x28]`; `header_length` from
`struct.unpack_from("<H", hdr, 0x28)`; then the block-map loop from
offset 0x30 over the full input. -/
def parse_header (data : Bytes) (fuel : Nat) : Except PyErr FirmwareVolume :=
  let hdr := pySlice data 0 0x30
  if hdr.length < 44 then .error .structError
  else if pySlice hdr 0x28 0x2C = fvSignature then
    (blockMapLoop data fuel 0x30 []).map fun bm =>
      ⟨leValue (pySlice hdr 0x20 0x28), leValue (pySlice hdr 0x28 0x2A), bm⟩
  else .error .badSignature

/-- `firmware_utils.EfiSection.parse` on the record slice `raw`:
`hdr = raw[:4]` (indexing it needs 4 bytes, else `IndexError`);
`type = hdr[0]`, `size = hdr[1] | hdr[2] << 8 | hdr[3] << 16`,
`attrs = raw[4] if len(raw) > 4 else 0`, `body = raw[4:size]`.
Decompression only when `type == 0x01 and attrs == 0x01`: there
`alg = body[0]` and the declared size are read (4 bytes of `body`, else
`IndexError`), `alg != 1` raises `NotImplementedError`, otherwise the
payload is `lzma.decompress(body[4:])`.  Every other section exposes
`body` raw. -/
def sectionParse (lzma : Bytes → Option Bytes) (raw : Bytes) (file_offset : Nat) :
    Except PyErr EfiSection :=
  if raw.length < 4 then .error .indexError
  else
    let ty := raw.getD 0 0
    let size := u24at raw 1
    let attrs := sectAttrs raw
    let body := pySlice raw 4 size
    if ty = 0x01 ∧ attrs = 0x01 then
      if body.length < 4 then .error .indexError
      else if body.getD 0 0 ≠ 0x01 then .error .notImplementedError
      else
        match lzma (body.drop 4) with
        | some out => .ok ⟨ty, size, attrs, file_offset, out⟩
        | none => .error .lzmaError
    else .ok ⟨ty, size, attrs, file_offset, body⟩

/-- `firmware_utils.FfsFile.parse_sections`: starting at offset 24 and
while `offset + 4 <= end` (with `end = self.size`), parse
`EfiSection(self._raw[offset:end], offset)`, append it, and advance by
`sec.size_padded()` which is `align_up(sec.size, 4)`. -/
def parseSectionsLoop (lzma : Bytes → Option Bytes) (raw : Bytes) (endp : Nat) :
    Nat → Nat → List EfiSection → Except PyErr (List EfiSection)
  | 0, _, _ => .error .fuelExhausted
  | fuel + 1, offset, acc =>
    if offset + 4 ≤ endp then
      match sectionParse lzma (pySlice raw offset endp) offset with
      | .error e => .error e
      | .ok sec => parseSectionsLoop lzma raw endp fuel (offset + align_up sec.size 4) (acc ++ [sec])
    else .ok acc

/-- `firmware_utils.FfsFile.parse`: `parse_header` reads the 16-byte GUID
(`uuid.UUID(bytes_le=...)` demands exactly 16 bytes, else `ValueError`),
`type`/`attributes` via `struct.unpack_from("<BB", raw, 16)` (needs 18
bytes), the 24-bit `size` from `raw[18:21]` (indexing needs 21 bytes) and
`state = raw[21]` (needs 22); then `data = raw[24:size]` and the section
walk over `[24, size)`. -/
def ffsParse (lzma : Bytes → Option Bytes) (raw : Bytes) (fv_offset fuel : Nat) :
    Except PyErr FfsFile :=
  if raw.length < 16 then .error .uuidError
  else if raw.length < 18 then .error .structError
  else if raw.length < 21 then .error .indexError
  else if raw.length < 22 then .error .indexError
  else
    let size := u24at raw 18
    (parseSectionsLoop lzma raw size fuel 24 []).map fun secs =>
      ⟨raw.take 16, raw.getD 16 0, raw.getD 17 0, size, raw.getD 21 0,
        pySlice raw 24 size, secs, fv_offset⟩

/-- `firmware_utils.FirmwareVolume.parse_files`: `ptr` starts at
`header_length`; while `ptr + 24 < end` (with `end = fv_length`), stop on
a zeroed 16-byte GUID slot, otherwise parse `FfsFile(data[ptr:], ptr)`,
append it and advance by `size_padded()` `= align_up(size, 8)`. -/
def parseFilesLoop (lzma : Bytes → Option Bytes) (data : Bytes) (endp : Nat) :
    Nat → Nat → List FfsFile → Except PyErr (List FfsFile)
  | 0, _, _ => .error .fuelExhausted
  | fuel + 1, ptr, acc =>
    if ptr + 24 < endp then
      let raw := data.drop ptr
      if pySlice raw 0 16 = List.replicate 16 0 then .ok acc
      else
        match ffsParse lzma raw ptr fuel with
        | .error e => .error e
        | .ok f => parseFilesLoop lzma data endp fuel (ptr + align_up f.size 8) (acc ++ [f])
    else .ok acc

/-- `parse_files` as invoked on the volume state: the loop from
`header_length` to `fv_length` with an empty accumulator. -/
def parse_files (lzma : Bytes → Option Bytes) (data : Bytes)
    (header_length fv_length fuel : Nat) : Except PyErr (List FfsFile) :=
  parseFilesLoop lzma data fv_length fuel header_length []

end FWU

/-- Result of `extract_fw.FfsFile.__init__` plus `parse`: the GUID bytes,
the declared 24-bit size, and the parsed sections. -/
structure EfwFfs where
  guid : Bytes
  size : Nat
  sections : List EfiSection
deriving DecidableEq

namespace EFW

/-- Python `data.find(pat, start)`: the smallest index `i ≥ start` with
`data[i:i+len(pat)] == pat`, or `None` (Python: `-1`). -/
def findFrom (data pat : Bytes) (start : Nat) : Option Nat :=
  (List.range (data.length + 1)).find? fun i =>
    decide (start ≤ i) && decide (pySlice data i (i + pat.length) = pat)

/-- `extract_fw.FirmwareVolume.parse_header`: search for `_FVH` from
offset 0x40 (`ValueError` when absent — the extractor bad-signature
failure); take `hdr = data[sig_off-0x40 : sig_off+0x40]`; unpack the
fixed header from `hdr` (44 bytes needed, else `struct.error`); check
`hdr[0x28:0x2C]` against the signature; read `fv_len` and `header_len`
from `hdr`; then the block-map loop from `sig_off + 0x4C`. -/
def parse_header (data : Bytes) (fuel : Nat) : Except PyErr FirmwareVolume :=
  match findFrom data fvSignature 0x40 with
  | none => .error .badSignature
  | some sig_off =>
    let hdr := pySlice data (sig_off - 0x40) (sig_off + 0x40)
    if hdr.length < 44 then .error .structError
    else if pySlice hdr 0x28 0x2C = fvSignature then
      (blockMapLoop data fuel (sig_off + 0x4C) []).map fun bm =>
        ⟨leValue (pySlice hdr 0x20 0x28), leValue (pySlice hdr 0x28 0x2A), bm⟩
    else .error .badSignature

/-- `extract_fw.EfiSection.__init__` plus `parse`: the constructor reads
`type = raw[0]` (`IndexError` on an empty slice), the size as
`int.from_bytes(raw[1:4], "little")`, and `attrs = raw[4] if len(raw) > 4
else 0`; `parse` takes `body = raw[4:size]` and, for `type == 0x01`,
checks `alg = body[0]` (`IndexError` when empty) and raises
`NotImplementedError` unless `alg == 1`, otherwise decompresses
`body[4:]`.  All other types expose `body` raw. -/
def sectionParse (lzma : Bytes → Option Bytes) (raw : Bytes) (offset : Nat) :
    Except PyErr EfiSection :=
  if raw.length < 1 then .error .indexError
  else
    let ty := raw.getD 0 0
    let size := leValue (pySlice raw 1 4)
    let attrs := sectAttrs raw
    let body := pySlice raw 4 size
    if ty = 0x01 then
      if body.length < 1 then .error .indexError
      else if body.getD 0 0 ≠ 1 then .error .notImplementedError
      else
        match lzma (body.drop 4) with
        | some out => .ok ⟨ty, size, attrs, offset, out⟩
        | none => .error .lzmaError
    else .ok ⟨ty, size, attrs, offset, body⟩

/-- `extract_fw.FfsFile.parse` section walk: `ptr` starts at 24 and while
`ptr + 4 <= self.size`, parse `EfiSection(self.raw[ptr:], ptr)`, append
it, and advance by `align_up(sec.size, ALIGN)` with `ALIGN = 8`. -/
def ffsSectionsLoop (lzma : Bytes → Option Bytes) (raw : Bytes) (size : Nat) :
    Nat → Nat → List EfiSection → Except PyErr (List EfiSection)
  | 0, _, _ => .error .fuelExhausted
  | fuel + 1, ptr, acc =>
    if ptr + 4 ≤ size then
      match sectionParse lzma (raw.drop ptr) ptr with
      | .error e => .error e
      | .ok sec => ffsSectionsLoop lzma raw size fuel (ptr + align_up sec.size 8) (acc ++ [sec])
    else .ok acc

/-- `extract_fw.FfsFile`: the constructor reads the GUID from `raw[:16]`
(`uuid.UUID(bytes_le=...)` demands 16 bytes) and the 24-bit size from
`raw[0x12:0x15]`; `parse` runs the section walk. -/
def ffsParse (lzma : Bytes → Option Bytes) (raw : Bytes) (fuel : Nat) :
    Except PyErr EfwFfs :=
  if raw.length < 16 then .error .uuidError
  else
    let size := leValue (pySlice raw 0x12 0x15)
    (ffsSectionsLoop lzma raw size fuel 24 []).map fun secs =>
      ⟨raw.take 16, size, secs⟩

end EFW

/-- The spec reading of the block map: the `(num_blocks, block_length)`
entries at offsets `0x30 + 4*i`, strictly preceding the first `(0, 0)`
entry.  Stated from the words of the spec, for comparison with the loop the
source actually runs. -/
def spec_block_map (data : Bytes) : List (Nat × Nat) :=
  ((List.range (data.length / 4 + 1)).map fun i => entryAt data (0x30 + 4 * i)).takeWhile
    fun e => decide (e ≠ (0, 0))

/-- LZMA oracle that rejects every stream. -/
def lzmaNone : Bytes → Option Bytes := fun _ => none

/-- LZMA oracle that returns the stream unchanged. -/
def lzmaId : Bytes → Option Bytes := fun b => some b

/-- A 32-byte FFS file record: declared size 0x20, body holding two
4-byte sections (types 0x10 and 0x11) packed at body offsets 24 and 28. -/
def fileC1 : Bytes :=
  [1] ++ List.replicate 15 0 ++ [7, 0, 32, 0, 0, 0, 0, 0] ++
  [0x10, 4, 0, 0] ++ [0x11, 4, 0, 0]

/-- A 64-byte file area holding two FFS records of declared size 25 at
offsets 0 and 32 (each padded to the 8-byte file stride). -/
def areaC1 : Bytes :=
  [2] ++ List.replicate 15 0 ++ [0, 0, 25, 0, 0, 0, 0, 0] ++ List.replicate 8 0 ++
  [3] ++ List.replicate 15 0 ++ [0, 0, 25, 0, 0, 0, 0, 0] ++ List.replicate 8 0

/-- A 52-byte firmware volume, valid up to the block map: `fv_length =
0x40` at 0x20, `_FVH` at 0x28, the 16-bit value 0x1234 at offset 0x30,
and a zero entry ending the block map. -/
def c2input : Bytes :=
  List.replicate 0x20 0 ++ [0x40, 0, 0, 0, 0, 0, 0, 0] ++ fvSignature ++
  [0, 0, 0, 0] ++ [0x34, 0x12, 0, 0]

/-- A 60-byte firmware volume whose block map holds the entries
`(0, 5)`, `(3, 4)` and then the `(0, 0)` terminator. -/
def c5a : Bytes :=
  List.replicate 0x20 0 ++ [0x40, 0, 0, 0, 0, 0, 0, 0] ++ fvSignature ++
  [0, 0, 0, 0] ++ [0, 0, 5, 0] ++ [3, 0, 4, 0] ++ [0, 0, 0, 0]

/-- A 52-byte firmware volume whose block map holds only the `(0, 0)`
terminator. -/
def c5b : Bytes :=
  List.replicate 0x20 0 ++ [0x40, 0, 0, 0, 0, 0, 0, 0] ++ fvSignature ++
  [0, 0, 0, 0] ++ [0, 0, 0, 0]

/-- A 25-byte file area holding one record with a non-zero GUID slot and
declared size 8 (smaller than the 24-byte header). -/
def inputE : Bytes := [1] ++ List.replicate 15 0 ++ [0, 0, 8, 0, 0, 0, 0, 0] ++ [0]

/-- A 25-byte file area holding one record with a non-zero GUID slot and
declared size 27, which extends past the area end. -/
def inputF : Bytes := [1] ++ List.replicate 15 0 ++ [0, 0, 27, 0, 0, 0, 0, 0] ++ [0]

/-- A file area of exactly 24 bytes whose GUID slot is not zero. -/
def data24 : Bytes := [1] ++ List.replicate 23 0

/-- A 44-byte input whose bytes at 0x28 are not the FV signature. -/
def c3bad : Bytes := List.replicate 44 0

/-- An input shorter than 0x2C bytes. -/
def shortInput : Bytes := List.replicate 16 0

/-- A 56-byte firmware volume whose block map holds the entry
`(1, 0x40)` followed by the `(0, 0)` terminator. -/
def c5w : Bytes :=
  List.replicate 0x20 0 ++ [0x40, 0, 0, 0, 0, 0, 0, 0] ++ fvSignature ++
  [0, 0, 0, 0] ++ [1, 0, 0x40, 0] ++ [0, 0, 0, 0]

/-- A compression section record (type 0x01, size 8) whose attrs byte is
5; its body starts with that same byte. -/
def raw10 : Bytes := [1, 8, 0, 0, 5, 2, 3, 4]

/-- A compression section record in which the first body byte (algorithm id)
is 2. -/
def rawBad : Bytes := [1, 9, 0, 0, 2, 0, 0, 0, 0]

/-- A compression section record with algorithm id 1 and a 4-byte
compressed stream `[5, 6, 7, 8]` after the compression header. -/
def rawGood : Bytes := [1, 12, 0, 0, 1, 0, 0, 0, 5, 6, 7, 8]

/-- A non-compression section record (type 0x10, size 7) inside a
10-byte slice. -/
def rawSec : Bytes := [0x10, 7, 0, 0, 9, 8, 7, 6, 5, 4]

/-- The file list `parse_files` produces on `inputE`. -/
def fsE : List FfsFile :=
  [⟨[1, 0, 0, 0, 0, 0, 0, 0, 0, 0, 0, 0, 0, 0, 0, 0], 0, 0, 8, 0, [], [], 0⟩]

/-- The file list `parse_files` produces on `inputF`. -/
def fsF : List FfsFile :=
  [⟨[1, 0, 0, 0, 0, 0, 0, 0, 0, 0, 0, 0, 0, 0, 0, 0], 0, 0, 27, 0, [0], [], 0⟩]

/-- A 26-byte file area beginning with a zeroed GUID slot. -/
def dataTerm : Bytes := List.replicate 26 0

/-- Slicing an initial segment again within its range slices the
original list. -/
theorem pySlice_zero_take (b : Bytes) (n lo hi : Nat) (h : hi ≤ n) :
    pySlice (pySlice b 0 n) lo hi = pySlice b lo hi := by
  simp [pySlice, List.take_take, Nat.min_eq_left h]

/-- Length of an initial slice. -/
theorem pySlice_length (b : Bytes) (n : Nat) : (pySlice b 0 n).length = min n b.length := by
  simp [pySlice]

/-- C1: inside one FFS file body, `firmware_utils.FfsFile.parse_sections`
advances the cursor by `align_up(size, 4)` and yields both packed
sections (offsets 24 and 28), and its FFS iterator advances files by
`align_up(size, 8)` (offsets 0 and 32 for two size-25 records); but the
section walk of `extract_fw.FfsFile.parse` advances by `align_up(size,
8)` on the very same record and silently parses only the first section.
The claimed 4-byte section stride fails for `extract_fw.py`, which uses
the single constant `ALIGN = 8` for both layers. -/
theorem c1_section_stride_divergence :
    (∃ f, FWU.ffsParse lzmaNone fileC1 0 6 = .ok f ∧
      f.sections.map EfiSection.file_offset = [24, 28]) ∧
    (∃ g, EFW.ffsParse lzmaNone fileC1 6 = .ok g ∧
      g.sections.map EfiSection.file_offset = [24]) ∧
    (∃ fs, FWU.parse_files lzmaNone areaC1 0 64 6 = .ok fs ∧
      fs.map FfsFile.fv_offset = [0, 32]) ∧
    align_up 4 4 = 4 ∧ align_up 4 8 = 8 :=
  ⟨⟨_, rfl, rfl⟩, ⟨_, rfl, rfl⟩, ⟨_, rfl, rfl⟩, rfl, rfl⟩

/-- C2: on an accepted input, `firmware_utils.FirmwareVolume.parse_header`
does not store the 16-bit value at offset 0x30 (here 0x1234) in
`header_length`: it reads `struct.unpack_from("<H", hdr, 0x28)`, the
first two signature bytes, so `header_length` is always 0x465F (the
little-endian value of the bytes of the text underscore-F). -/
theorem c2_header_length_not_at_0x30 :
    FWU.parse_header c2input 5 = .ok ⟨0x40, 0x465F, []⟩ ∧
    leValue (pySlice c2input 0x30 0x32) = 0x1234 ∧
    pySlice c2input 0x28 0x2C = fvSignature ∧
    (0x465F : Nat) ≠ 0x1234 :=
  ⟨rfl, rfl, rfl, by decide⟩

/-- C5 counterexample: the header parser stops at the first block-map
entry with a zero component, not at the first `(0, 0)` entry — on `c5a`
it stores `[]` while the entries preceding the first `(0, 0)` are
`[(0, 5), (3, 4)]` — and on a block map holding only the terminator
(`c5b`) it succeeds with an empty `block_map` instead of failing with
`EmptyBlockMap` (no such error exists in the source). -/
theorem c5_counterexample :
    (∃ v, FWU.parse_header c5a 5 = .ok v ∧ v.block_map = []) ∧
    spec_block_map c5a = [(0, 5), (3, 4)] ∧
    ([] : List (Nat × Nat)) ≠ [(0, 5), (3, 4)] ∧
    FWU.parse_header c5b 5 = .ok ⟨0x40, 0x465F, []⟩ :=
  ⟨⟨_, rfl, rfl⟩, rfl, by decide, rfl⟩

/-- C6 counterexample: `parse_files` applies no size validation.  A record
with declared size 8 (smaller than the 24-byte header) is yielded
normally instead of producing `MalformedFfs`, and a record of declared
size 27 inside a 25-byte file area is yielded normally instead of
producing `TruncatedFfs`; neither error exists in the source. -/
theorem c6_counterexample :
    (∃ fs, FWU.parse_files lzmaNone inputE 0 25 6 = .ok fs ∧
      fs.map FfsFile.size = [8]) ∧
    (∃ fs, FWU.parse_files lzmaNone inputF 0 25 6 = .ok fs ∧
      fs.map FfsFile.size = [27]) ∧
    (8 : Nat) < 24 ∧ (25 : Nat) < 0 + 27 :=
  ⟨⟨_, rfl, rfl⟩, ⟨_, rfl, rfl⟩, by decide, by decide⟩

/-- C7 counterexample: with exactly 24 bytes remaining in the file area
and a non-zero GUID slot, the iterator (`while ptr + 24 < end`) stops
without yielding the file the claim requires. -/
theorem c7_counterexample :
    FWU.parse_files lzmaNone data24 0 24 6 = .ok [] ∧
    data24.length = 24 ∧
    pySlice data24 0 16 ≠ List.replicate 16 0 :=
  ⟨rfl, rfl, by decide⟩

/-- C9: on an input of 16 bytes (shorter than 0x2C),
`firmware_utils.FirmwareVolume.parse_header` raises `struct.error` from
`struct.unpack_from` — an exception outside the documented error
taxonomy, not `BadSignature` or `TruncatedFv` — while the extractor
variant fails with its bad-signature `ValueError`. -/
theorem c9_short_input_struct_error :
    FWU.parse_header shortInput 5 = .error .structError ∧
    EFW.parse_header shortInput 5 = .error .badSignature ∧
    shortInput.length = 16 ∧
    PyErr.structError ≠ PyErr.badSignature :=
  ⟨rfl, rfl, rfl, by decide⟩

/-- C3: for inputs long enough that the four bytes at offset 0x28 exist
(at least 0x2C bytes), `firmware_utils.FirmwareVolume.parse_header`
succeeds only when those bytes are exactly the FV signature, and for
every input where they differ it fails with the bad-signature
`ValueError` — wherever else the signature may occur in the input. -/
theorem c3_signature_exactly_at_0x28 (data : Bytes) (fuel : Nat)
    (hlen : 0x2C ≤ data.length) :
    (∀ fv, FWU.parse_header data fuel = .ok fv → pySlice data 0x28 0x2C = fvSignature) ∧
    (pySlice data 0x28 0x2C ≠ fvSignature →
      FWU.parse_header data fuel = .error .badSignature) := by
  have h44 : ¬ (pySlice data 0 0x30).length < 44 := by
    rw [pySlice_length]; omega
  have hs : pySlice (pySlice data 0 0x30) 0x28 0x2C = pySlice data 0x28 0x2C :=
    pySlice_zero_take data 0x30 0x28 0x2C (by norm_num)
  constructor
  · intro fv hok
    by_contra hne
    simp only [FWU.parse_header] at hok
    rw [if_neg h44, hs, if_neg hne] at hok
    exact absurd hok (by simp)
  · intro hne
    simp only [FWU.parse_header]
    rw [if_neg h44, hs, if_neg hne]

/-- Witness for C3: a 44-byte all-zero input is rejected with the
bad-signature error. -/
theorem c3_signature_exactly_at_0x28_witness :
    FWU.parse_header c3bad 6 = .error .badSignature :=
  (c3_signature_exactly_at_0x28 c3bad 6 (by decide)).2 (by decide)

/-- C8: a parsed section whose type tag is not 0x01, with declared size
between 4 and the remaining slice length, exposes exactly the record
bytes `[4, size)` as its payload — in both the library and the extractor
section parsers — and that payload has exactly `size - 4` bytes.  The two
size hypotheses state the same declared 24-bit size as each
implementation assembles it. -/
theorem c8_noncompression_payload (lzma : Bytes → Option Bytes) (raw : Bytes)
    (offset size : Nat)
    (hty : raw.getD 0 0 ≠ 1)
    (hszF : u24at raw 1 = size)
    (hszE : leValue (pySlice raw 1 4) = size)
    (h4 : 4 ≤ size) (hlen : size ≤ raw.length) :
    FWU.sectionParse lzma raw offset =
      .ok ⟨raw.getD 0 0, size, sectAttrs raw, offset, (raw.take size).drop 4⟩ ∧
    EFW.sectionParse lzma raw offset =
      .ok ⟨raw.getD 0 0, size, sectAttrs raw, offset, (raw.take size).drop 4⟩ ∧
    ((raw.take size).drop 4).length = size - 4 := by
  have hr4 : ¬ raw.length < 4 := by omega
  have hr1 : ¬ raw.length < 1 := by omega
  refine ⟨?_, ?_, ?_⟩
  · simp only [FWU.sectionParse]
    rw [if_neg hr4, hszF, if_neg (fun h => hty h.1)]
    exact rfl
  · simp only [EFW.sectionParse]
    rw [if_neg hr1, hszE, if_neg hty]
    exact rfl
  · rw [List.length_drop, List.length_take]; omega

/-- Witness for C8 on a concrete type-0x10 section of size 7. -/
theorem c8_noncompression_payload_witness :
    FWU.sectionParse lzmaNone rawSec 3 =
      .ok ⟨rawSec.getD 0 0, 7, sectAttrs rawSec, 3, (rawSec.take 7).drop 4⟩ ∧
    EFW.sectionParse lzmaNone rawSec 3 =
      .ok ⟨rawSec.getD 0 0, 7, sectAttrs rawSec, 3, (rawSec.take 7).drop 4⟩ ∧
    ((rawSec.take 7).drop 4).length = 7 - 4 :=
  c8_noncompression_payload lzmaNone rawSec 3 7 (by decide) (by decide) (by decide)
    (by decide) (by decide)

/-- C10: in `firmware_utils.EfiSection.parse` a type-0x01 section whose
attrs byte (offset 4, defaulting to 0) is not 0x01 takes the raw branch:
the parse succeeds with the literal body bytes `[4, size)` as payload,
and the result does not depend on the LZMA decoder at all — no
decompression is attempted and no error is raised, whatever the
algorithm-id byte holds. -/
theorem c10_attrs_gated_decompression (lzma lzma2 : Bytes → Option Bytes)
    (raw : Bytes) (offset : Nat)
    (hlen : 4 ≤ raw.length)
    (hty : raw.getD 0 0 = 1)
    (hattrs : sectAttrs raw ≠ 1) :
    FWU.sectionParse lzma raw offset =
      .ok ⟨1, u24at raw 1, sectAttrs raw, offset, pySlice raw 4 (u24at raw 1)⟩ ∧
    FWU.sectionParse lzma raw offset = FWU.sectionParse lzma2 raw offset := by
  have hr4 : ¬ raw.length < 4 := by omega
  have hno : ¬ (raw.getD 0 0 = 1 ∧ sectAttrs raw = 1) := fun h => hattrs h.2
  constructor
  · simp only [FWU.sectionParse]
    rw [if_neg hr4, if_neg hno, hty]
  · simp only [FWU.sectionParse]
    rw [if_neg hr4, if_neg hno, if_neg hr4, if_neg hno]

/-- Witness for C10 on a concrete type-0x01 section with attrs byte 5:
the payload is the raw body and the failing LZMA oracle is never
consulted. -/
theorem c10_attrs_gated_decompression_witness :
    FWU.sectionParse lzmaNone raw10 0 =
      .ok ⟨1, u24at raw10 1, sectAttrs raw10, 0, pySlice raw10 4 (u24at raw10 1)⟩ ∧
    FWU.sectionParse lzmaNone raw10 0 = FWU.sectionParse lzmaId raw10 0 :=
  c10_attrs_gated_decompression lzmaNone lzmaId raw10 0 (by decide) (by decide) (by decide)

/-- C4: the claim fails on the library parser.  In
`firmware_utils.EfiSection.parse` the compression branch is gated on
`attrs == 0x01`, and `attrs = raw[4]` is the very byte that is
`body[0]`, the algorithm id — so on a type-0x01 section whose algorithm
byte is 2 (`rawBad`) the library parses successfully, exposing the raw
body as payload, and `NotImplementedError` (`UnsupportedCompression`) is
unreachable there; only `extract_fw.EfiSection.parse` raises it.  On an
algorithm byte of 1 with an accepting decoder (`rawGood`), both parsers
expose the decompression of the body bytes after the 4-byte compression
header, as the second half of the claim states. -/
theorem c4_unsupported_compression_unreachable :
    FWU.sectionParse lzmaNone rawBad 0 = .ok ⟨1, 9, 2, 0, [2, 0, 0, 0, 0]⟩ ∧
    EFW.sectionParse lzmaNone rawBad 0 = .error .notImplementedError ∧
    FWU.sectionParse lzmaId rawGood 0 = .ok ⟨1, 12, 1, 0, [5, 6, 7, 8]⟩ ∧
    EFW.sectionParse lzmaId rawGood 0 = .ok ⟨1, 12, 1, 0, [5, 6, 7, 8]⟩ :=
  ⟨rfl, rfl, rfl, rfl⟩

/-- The block-map loop stores exactly the entries preceding the first
entry with a zero component: `k` consecutive good entries from `off`
followed by a stopping entry within bounds produce the accumulated list
extended by those `k` entries. -/
theorem blockMapLoop_entries (data : Bytes) (k : Nat) :
    ∀ (fuel off : Nat) (acc : List (Nat × Nat)),
      (∀ i < k, (entryAt data (off + 4 * i)).1 ≠ 0 ∧ (entryAt data (off + 4 * i)).2 ≠ 0) →
      ((entryAt data (off + 4 * k)).1 = 0 ∨ (entryAt data (off + 4 * k)).2 = 0) →
      off + 4 * k + 4 ≤ data.length →
      k < fuel →
      blockMapLoop data fuel off acc =
        .ok (acc ++ (List.range k).map fun i => entryAt data (off + 4 * i)) := by
  induction k with
  | zero =>
    intro fuel off acc _ hstop hb hfuel
    obtain ⟨f, rfl⟩ : ∃ f, fuel = f + 1 := ⟨fuel - 1, by omega⟩
    simp only [blockMapLoop]
    rw [if_pos (by omega : off + 4 ≤ data.length), if_pos (by simpa using hstop)]
    simp
  | succ k ih =>
    intro fuel off acc hgood hstop hb hfuel
    obtain ⟨f, rfl⟩ : ∃ f, fuel = f + 1 := ⟨fuel - 1, by omega⟩
    have h0 : (entryAt data off).1 ≠ 0 ∧ (entryAt data off).2 ≠ 0 := by
      simpa using hgood 0 (by omega)
    simp only [blockMapLoop]
    rw [if_pos (by omega : off + 4 ≤ data.length), if_neg (by push_neg; exact h0)]
    have hgood4 : ∀ i < k, (entryAt data (off + 4 + 4 * i)).1 ≠ 0 ∧
        (entryAt data (off + 4 + 4 * i)).2 ≠ 0 := by
      intro i hi
      have h := hgood (i + 1) (by omega)
      have e : off + 4 * (i + 1) = off + 4 + 4 * i := by ring
      rwa [e] at h
    have hstop4 : (entryAt data (off + 4 + 4 * k)).1 = 0 ∨
        (entryAt data (off + 4 + 4 * k)).2 = 0 := by
      have e : off + 4 * (k + 1) = off + 4 + 4 * k := by ring
      rwa [e] at hstop
    rw [ih f (off + 4) (acc ++ [entryAt data off]) hgood4 hstop4 (by omega) (by omega)]
    refine congrArg Except.ok ?_
    rw [List.append_assoc, List.singleton_append, List.range_succ_eq_map, List.map_cons,
      List.map_map]
    refine congrArg (fun l => acc ++ l) (congrArg₂ List.cons ?_ ?_)
    · show entryAt data off = entryAt data (off + 4 * 0)
      congr 1
    · refine List.map_congr_left fun i _ => ?_
      show entryAt data (off + 4 + 4 * i) = entryAt data (off + 4 * (i + 1))
      congr 1
      omega

/-- C5 amended: the header parser stores in `block_map` exactly the
4-byte entries strictly preceding the first entry whose `num_blocks` or
`block_length` is zero (the stopping entry is not stored), and such
inputs — including a block map with no non-terminator entries — parse
without error; there is no `EmptyBlockMap` failure. -/
theorem c5_block_map_amended (data : Bytes) (fuel k : Nat)
    (hsig : pySlice data 0x28 0x2C = fvSignature)
    (hlen : 0x2C ≤ data.length)
    (hgood : ∀ i < k, (entryAt data (0x30 + 4 * i)).1 ≠ 0 ∧
      (entryAt data (0x30 + 4 * i)).2 ≠ 0)
    (hstop : (entryAt data (0x30 + 4 * k)).1 = 0 ∨ (entryAt data (0x30 + 4 * k)).2 = 0)
    (hb : 0x30 + 4 * k + 4 ≤ data.length)
    (hfuel : k < fuel) :
    FWU.parse_header data fuel =
      .ok ⟨leValue (pySlice data 0x20 0x28), leValue (pySlice data 0x28 0x2A),
        (List.range k).map fun i => entryAt data (0x30 + 4 * i)⟩ := by
  have h44 : ¬ (pySlice data 0 0x30).length < 44 := by
    rw [pySlice_length]; omega
  have hs : pySlice (pySlice data 0 0x30) 0x28 0x2C = pySlice data 0x28 0x2C :=
    pySlice_zero_take data 0x30 0x28 0x2C (by norm_num)
  have hs20 : pySlice (pySlice data 0 0x30) 0x20 0x28 = pySlice data 0x20 0x28 :=
    pySlice_zero_take data 0x30 0x20 0x28 (by norm_num)
  have hs28 : pySlice (pySlice data 0 0x30) 0x28 0x2A = pySlice data 0x28 0x2A :=
    pySlice_zero_take data 0x30 0x28 0x2A (by norm_num)
  simp only [FWU.parse_header]
  rw [if_neg h44, hs, if_pos hsig,
    blockMapLoop_entries data k fuel 0x30 [] hgood hstop hb hfuel, hs20, hs28]
  simp [Except.map]

/-- Witness for C5 at a volume whose block map is `(1, 0x40)` followed by
the terminator. -/
theorem c5_block_map_amended_witness :
    FWU.parse_header c5w 5 =
      .ok ⟨leValue (pySlice c5w 0x20 0x28), leValue (pySlice c5w 0x28 0x2A),
        (List.range 1).map fun i => entryAt c5w (0x30 + 4 * i)⟩ :=
  c5_block_map_amended c5w 5 1 (by decide) (by decide) (by decide) (by decide)
    (by decide) (by decide)

/-- A successfully parsed FFS file records the offset it was constructed
at and the declared 24-bit size read at bytes 18..20 of its slice. -/
theorem ffsParse_ok_fields (lzma : Bytes → Option Bytes) (raw : Bytes) (p fuel : Nat)
    (f : FfsFile) (h : FWU.ffsParse lzma raw p fuel = .ok f) :
    f.fv_offset = p ∧ f.size = u24at raw 18 := by
  simp only [FWU.ffsParse] at h
  split at h
  · exact absurd h (by simp)
  split at h
  · exact absurd h (by simp)
  split at h
  · exact absurd h (by simp)
  split at h
  · exact absurd h (by simp)
  cases hl : FWU.parseSectionsLoop lzma raw (u24at raw 18) fuel 24 [] with
  | error e => rw [hl] at h; exact absurd h (by simp [Except.map])
  | ok secs =>
    rw [hl] at h
    simp only [Except.map] at h
    injection h with h
    subst h
    exact ⟨rfl, rfl⟩

/-- Every file accumulated by the FFS loop appears in a successful final
result. -/
theorem parseFilesLoop_mono (lzma : Bytes → Option Bytes) (data : Bytes) (endp : Nat) :
    ∀ (fuel ptr : Nat) (acc files : List FfsFile),
      FWU.parseFilesLoop lzma data endp fuel ptr acc = .ok files →
      ∀ x ∈ acc, x ∈ files := by
  intro fuel
  induction fuel with
  | zero =>
    intro ptr acc files h
    exact absurd h (by simp [FWU.parseFilesLoop])
  | succ f ih =>
    intro ptr acc files h
    simp only [FWU.parseFilesLoop] at h
    by_cases h1 : ptr + 24 < endp
    · rw [if_pos h1] at h
      by_cases h2 : pySlice (data.drop ptr) 0 16 = List.replicate 16 0
      · rw [if_pos h2] at h
        injection h with h
        subst h
        exact fun x hx => hx
      · rw [if_neg h2] at h
        cases hf : FWU.ffsParse lzma (data.drop ptr) ptr f with
        | error e => rw [hf] at h; exact absurd h (by simp)
        | ok g =>
          rw [hf] at h
          intro x hx
          exact ih _ _ _ h x (List.mem_append_left _ hx)
    · rw [if_neg h1] at h
      injection h with h
      subst h
      exact fun x hx => hx

/-- When more than 24 bytes remain at the cursor and the GUID slot is not
zeroed, a successful FFS walk yields a file parsed at that cursor, with
whatever 24-bit size the record declares (no validation is applied). -/
theorem parseFilesLoop_first (lzma : Bytes → Option Bytes) (data : Bytes)
    (endp fuel ptr : Nat) (acc files : List FfsFile)
    (hok : FWU.parseFilesLoop lzma data endp fuel ptr acc = .ok files)
    (hroom : ptr + 24 < endp)
    (hterm : pySlice (data.drop ptr) 0 16 ≠ List.replicate 16 0) :
    ∃ f ∈ files, f.fv_offset = ptr ∧ f.size = u24at (data.drop ptr) 18 := by
  cases fuel with
  | zero => exact absurd hok (by simp [FWU.parseFilesLoop])
  | succ f =>
    simp only [FWU.parseFilesLoop] at hok
    rw [if_pos hroom, if_neg hterm] at hok
    cases hf : FWU.ffsParse lzma (data.drop ptr) ptr f with
    | error e => rw [hf] at hok; exact absurd hok (by simp)
    | ok g =>
      rw [hf] at hok
      refine ⟨g, parseFilesLoop_mono lzma data endp f _ _ _ hok g (by simp), ?_, ?_⟩
      · exact (ffsParse_ok_fields lzma (data.drop ptr) ptr f g hf).1
      · exact (ffsParse_ok_fields lzma (data.drop ptr) ptr f g hf).2

/-- C6 amended: the FFS iterator applies no size validation at all: when
more than 24 bytes remain and the GUID slot is non-zero, a successful
walk yields the record at the cursor with its declared 24-bit size as
read — even a size below 24 or one extending past the file-area end —
and no `MalformedFfs` or `TruncatedFfs` error exists in the source. -/
theorem c6_no_size_validation (lzma : Bytes → Option Bytes) (data : Bytes)
    (hdrLen fvLen fuel : Nat) (files : List FfsFile)
    (hok : FWU.parse_files lzma data hdrLen fvLen fuel = .ok files)
    (hroom : hdrLen + 24 < fvLen)
    (hterm : pySlice (data.drop hdrLen) 0 16 ≠ List.replicate 16 0) :
    ∃ f ∈ files, f.fv_offset = hdrLen ∧ f.size = u24at (data.drop hdrLen) 18 :=
  parseFilesLoop_first lzma data fvLen fuel hdrLen [] files hok hroom hterm

/-- Witness for C6: the size-8 record of `inputE` and the size-27 record
of `inputF` (inside a 25-byte area) are both yielded. -/
theorem c6_no_size_validation_witness :
    (∃ f ∈ fsE, f.fv_offset = 0 ∧ f.size = u24at (inputE.drop 0) 18) ∧
    (∃ f ∈ fsF, f.fv_offset = 0 ∧ f.size = u24at (inputF.drop 0) 18) ∧
    u24at (inputE.drop 0) 18 = 8 ∧ u24at (inputF.drop 0) 18 = 27 :=
  ⟨c6_no_size_validation lzmaNone inputE 0 25 6 fsE rfl (by decide) (by decide),
    c6_no_size_validation lzmaNone inputF 0 25 6 fsF rfl (by decide) (by decide),
    by decide, by decide⟩

/-- C7 amended: the FFS iterator stops, yielding no further file, exactly
when at most 24 bytes remain (`while ptr + 24 < end` is strict, so a
record filling the last 24 bytes is never parsed) or the next 16 bytes
are all zero; when more than 24 bytes remain and the GUID slot is
non-zero, a successful walk yields a file parsed at that position. -/
theorem c7_stop_conditions (lzma : Bytes → Option Bytes) (data : Bytes)
    (hdrLen fvLen fuel : Nat) (hfuel : 0 < fuel) :
    (fvLen ≤ hdrLen + 24 → FWU.parse_files lzma data hdrLen fvLen fuel = .ok []) ∧
    (hdrLen + 24 < fvLen → pySlice (data.drop hdrLen) 0 16 = List.replicate 16 0 →
      FWU.parse_files lzma data hdrLen fvLen fuel = .ok []) ∧
    (hdrLen + 24 < fvLen → pySlice (data.drop hdrLen) 0 16 ≠ List.replicate 16 0 →
      ∀ files, FWU.parse_files lzma data hdrLen fvLen fuel = .ok files →
        ∃ f ∈ files, f.fv_offset = hdrLen) := by
  obtain ⟨n, rfl⟩ : ∃ n, fuel = n + 1 := ⟨fuel - 1, by omega⟩
  refine ⟨?_, ?_, ?_⟩
  · intro h
    simp only [FWU.parse_files, FWU.parseFilesLoop]
    rw [if_neg (by omega)]
  · intro h1 h2
    simp only [FWU.parse_files, FWU.parseFilesLoop]
    rw [if_pos h1, if_pos h2]
  · intro h1 h2 files hok
    obtain ⟨f, hf, h3, _⟩ :=
      parseFilesLoop_first lzma data fvLen (n + 1) hdrLen [] files hok h1 h2
    exact ⟨f, hf, h3⟩

/-- Witness for C7: the exactly-24-byte area stops with no file, a
zeroed GUID slot stops with no file, and a 25-byte area with a non-zero
GUID yields the file at offset 0. -/
theorem c7_stop_conditions_witness :
    FWU.parse_files lzmaNone data24 0 24 6 = .ok [] ∧
    FWU.parse_files lzmaNone dataTerm 0 26 6 = .ok [] ∧
    (∃ f ∈ fsE, f.fv_offset = 0) :=
  ⟨(c7_stop_conditions lzmaNone data24 0 24 6 (by decide)).1 (by decide),
    (c7_stop_conditions lzmaNone dataTerm 0 26 6 (by decide)).2.1 (by decide) (by decide),
    (c7_stop_conditions lzmaNone inputE 0 25 6 (by decide)).2.2 (by decide) (by decide)
      fsE rfl⟩
